import Mathlib

/-!
Verification of the remoulade RabbitMQ broker adapter
(src/remoulade/brokers/rabbitmq.py) against its specification.

The adapter is embedded shallowly: pure computations of the Python code
become Lean functions, the broker/channel state becomes an explicit
record threaded through the operations, and effects on the external
AMQP broker become an explicit trace of operations.  Transient AMQP
failures are modelled by an oracle giving the outcome of each attempt.
-/

namespace Remoulade

/-- A scalar wire value (the payload values carried in args / kwargs /
options of a message). -/
inductive Val where
  | vstr (s : String)
  | vint (n : Int)
  | vbool (b : Bool)
  | vnull
deriving DecidableEq, Repr

/-- Lookup in an association list, first match wins — the semantics of a
Python mapping read. -/
def assocLookup (k : String) : List (String × α) → Option α
  | [] => none
  | (k₂, v) :: t => if k = k₂ then some v else assocLookup k t

/-- Modelled from the spec: the Message value type of remoulade.message
(the module is not under src/).  Per spec section 3, a Message is an
immutable value with message_id, actor_name, queue_name, positional and
keyword args, and an open options mapping. -/
structure Message where
  message_id : String
  actor_name : String
  queue_name : String
  args : List Val
  kwargs : List (String × Val)
  options : List (String × Val)
deriving DecidableEq, Repr

/-- A field of the wire form: either a string, an array of values, or a
nested mapping. -/
inductive WireVal where
  | s (v : String)
  | arr (l : List Val)
  | assoc (l : List (String × Val))
deriving DecidableEq, Repr

/-- The wire body: a self-describing structured encoding, a mapping from
field names to wire values. -/
abbrev Wire : Type := List (String × WireVal)

/-- Modelled from the spec: Message.encode (remoulade.message is not
under src/).  Spec section 6: the wire encoding is a self-describing
structured encoding of the six fields. -/
def Message.encode (m : Message) : Wire :=
  [ ("message_id", WireVal.s m.message_id),
    ("actor_name", WireVal.s m.actor_name),
    ("queue_name", WireVal.s m.queue_name),
    ("args", WireVal.arr m.args),
    ("kwargs", WireVal.assoc m.kwargs),
    ("options", WireVal.assoc m.options) ]

/-- Read a string field of a wire body. -/
def wireStr (w : Wire) (k : String) : Option String :=
  match assocLookup k w with
  | some (WireVal.s v) => some v
  | _ => none

/-- Read an array field of a wire body. -/
def wireArr (w : Wire) (k : String) : Option (List Val) :=
  match assocLookup k w with
  | some (WireVal.arr l) => some l
  | _ => none

/-- Read a mapping field of a wire body. -/
def wireAssoc (w : Wire) (k : String) : Option (List (String × Val)) :=
  match assocLookup k w with
  | some (WireVal.assoc l) => some l
  | _ => none

/-- Modelled from the spec: Message.decode (remoulade.message is not
under src/).  Decode is the inverse of encode: read each of the six
fields by name, failing if any is missing or of the wrong shape. -/
def Message.decode (w : Wire) : Option Message :=
  match wireStr w "message_id", wireStr w "actor_name", wireStr w "queue_name",
        wireArr w "args", wireAssoc w "kwargs", wireAssoc w "options" with
  | some mid, some an, some qn, some args, some kwargs, some opts =>
      some ⟨mid, an, qn, args, kwargs, opts⟩
  | _, _, _, _, _, _ => none

/-- Semantic equality of Messages: all scalar fields and the positional
args agree, and the kwargs and options mappings agree as unordered
collections of key-value pairs (key order is irrelevant). -/
def msgSemEq (m₁ m₂ : Message) : Prop :=
  m₁.message_id = m₂.message_id ∧
  m₁.actor_name = m₂.actor_name ∧
  m₁.queue_name = m₂.queue_name ∧
  m₁.args = m₂.args ∧
  m₁.kwargs.Perm m₂.kwargs ∧
  m₁.options.Perm m₂.options

/-- The consumer wraps a delivered body by decoding it
(rabbitmq.py line 407, `_RabbitmqMessage.__init__`). -/
def consumerWrapMessage (body : Wire) : Option Message :=
  Message.decode body

theorem decode_encode (m : Message) : Message.decode (Message.encode m) = some m := rfl

theorem msgSemEq_refl (m : Message) : msgSemEq m m :=
  ⟨rfl, rfl, rfl, rfl, List.Perm.refl _, List.Perm.refl _⟩

theorem msgSemEq_symm {m₁ m₂ : Message} (h : msgSemEq m₁ m₂) : msgSemEq m₂ m₁ :=
  ⟨h.1.symm, h.2.1.symm, h.2.2.1.symm, h.2.2.2.1.symm,
   h.2.2.2.2.1.symm, h.2.2.2.2.2.symm⟩

/-! ### Queue naming and broker constants -/

/-- Modelled from the spec: remoulade.common.dq_name (not under src/).
Spec section 6: delay queue name is the queue name followed by ".DQ". -/
def dq_name (queue_name : String) : String := queue_name ++ ".DQ"

/-- Modelled from the spec: remoulade.common.xq_name (not under src/).
Spec section 6: dead-letter queue name is the queue name followed by ".XQ". -/
def xq_name (queue_name : String) : String := queue_name ++ ".XQ"

/-- rabbitmq.py line 29: the maximum amount of time a message can be in
the dead queue. -/
def DEAD_MESSAGE_TTL : Int := 86400000 * 7

/-- rabbitmq.py line 33: the max number of times to attempt an enqueue
operation in case of a connection error. -/
def MAX_ENQUEUE_ATTEMPTS : Nat := 6

/-! ### Broker state -/

/-- The mutable state of a RabbitmqBroker that the verified operations
touch.  The connection and the current thread's channel are abstracted
to liveness flags (connectionOpen is false when the _connection
attribute is None or the connection is closed; channelOpen likewise for
the thread's cached channel). -/
structure RabbitmqBroker where
  url : String
  confirm_delivery : Bool
  max_priority : Option Int
  connectionOpen : Bool
  channelOpen : Bool
  queues : List String
  delay_queues : List String
  queues_declared : Bool
deriving DecidableEq, Repr

/-- RabbitmqBroker.__init__ (rabbitmq.py lines 56-70): validates
max_priority, then initialises the state with no connection and no
declared queues. -/
def brokerInit (confirm_delivery : Bool) (url : Option String)
    (max_priority : Option Int) : Except String RabbitmqBroker :=
  if max_priority.isSome ∧ ¬ (0 < max_priority.getD 0 ∧ max_priority.getD 0 ≤ 255) then
    Except.error "max_priority must be a value between 0 and 255"
  else
    Except.ok
      { url := url.getD ""
        confirm_delivery := confirm_delivery
        max_priority := max_priority
        connectionOpen := false
        channelOpen := false
        queues := []
        delay_queues := []
        queues_declared := false }

/-! ### Queue topology declaration -/

/-- A value of a queue-declaration argument. -/
inductive ArgVal where
  | str (s : String)
  | int (n : Int)
deriving DecidableEq, Repr

/-- An operation performed on the external broker over a channel. -/
inductive BrokerOp where
  | queueDeclare (queue : String) (durable : Bool) (arguments : List (String × ArgVal))
  | basicPublish (routing_key : String) (body : Wire) (properties_delivery_mode : Nat)
      (properties_priority : Option Val)
deriving DecidableEq, Repr

/-- RabbitmqBroker._build_queue_arguments (rabbitmq.py lines 183-191):
dead-letter routing arguments, plus x-max-priority when self.max_priority
is truthy. -/
def buildQueueArguments (max_priority : Option Int) (queue_name : String) :
    List (String × ArgVal) :=
  let arguments := [ ("x-dead-letter-exchange", ArgVal.str ""),
                     ("x-dead-letter-routing-key", ArgVal.str (xq_name queue_name)) ]
  if max_priority.getD 0 ≠ 0 then
    arguments ++ [("x-max-priority", ArgVal.int (max_priority.getD 0))]
  else
    arguments

/-- RabbitmqBroker._declare_queue (rabbitmq.py lines 193-195). -/
def declareQueueOp (max_priority : Option Int) (queue_name : String) : BrokerOp :=
  BrokerOp.queueDeclare queue_name true (buildQueueArguments max_priority queue_name)

/-- RabbitmqBroker._declare_dq_queue (rabbitmq.py lines 197-199). -/
def declareDqQueueOp (max_priority : Option Int) (queue_name : String) : BrokerOp :=
  BrokerOp.queueDeclare (dq_name queue_name) true (buildQueueArguments max_priority queue_name)

/-- RabbitmqBroker._declare_xq_queue (rabbitmq.py lines 201-206): the
dead-letter queue takes only the static x-message-ttl argument. -/
def declareXqQueueOp (queue_name : String) : BrokerOp :=
  BrokerOp.queueDeclare (xq_name queue_name) true [("x-message-ttl", ArgVal.int DEAD_MESSAGE_TTL)]

/-- RabbitmqBroker._declare_rabbitmq_queues (rabbitmq.py lines 152-161):
for each recorded queue name, declare the main, delay and dead-letter
queues. -/
def declareRabbitmqQueuesOps (st : RabbitmqBroker) : List BrokerOp :=
  st.queues.flatMap fun queue_name =>
    [ declareQueueOp st.max_priority queue_name,
      declareDqQueueOp st.max_priority queue_name,
      declareXqQueueOp queue_name ]

/-! ### declare_queue (local bookkeeping plus middleware hooks) -/

/-- A middleware hook emission observable from declare_queue. -/
inductive HookEv where
  | beforeDeclareQueue (queue_name : String)
  | afterDeclareQueue (queue_name : String)
  | afterDeclareDelayQueue (queue_name : String)
deriving DecidableEq, Repr

/-- RabbitmqBroker.declare_queue (rabbitmq.py lines 163-181): records the
queue name locally and emits the declare hooks; it performs no operation
on the external broker (the returned BrokerOp list is its channel
activity, always empty in the source).  A second call with a name
already recorded does nothing. -/
def declare_queue (st : RabbitmqBroker) (queue_name : String) :
    RabbitmqBroker × List HookEv × List BrokerOp :=
  if queue_name ∈ st.queues then
    (st, [], [])
  else
    let delayed_name := dq_name queue_name
    ( { st with
        queues := st.queues ++ [queue_name]
        delay_queues := st.delay_queues ++ [delayed_name] },
      [ HookEv.beforeDeclareQueue queue_name,
        HookEv.afterDeclareQueue queue_name,
        HookEv.afterDeclareDelayQueue delayed_name ],
      [] )

/-! ### Message copy and enqueue setup -/

/-- Python dict update: existing keys keep their position and take the
updated value, keys new to the base mapping are appended in order. -/
def optionsUpdate (base upd : List (String × Val)) : List (String × Val) :=
  (base.map fun p => (p.1, (assocLookup p.1 upd).getD p.2)) ++
    upd.filter fun p => (assocLookup p.1 base).isNone

/-- Modelled from the spec: Message.copy (remoulade.message is not under
src/).  Spec section 9: message mutation is copy-with-overrides
returning a new immutable value; the options override merges into the
existing options mapping. -/
def Message.copy (m : Message) (queue_name : String) (options : List (String × Val)) :
    Message :=
  { m with queue_name := queue_name, options := optionsUpdate m.options options }

/-- The publish properties built by enqueue (rabbitmq.py lines 222-225):
delivery_mode 2 and the priority from the message options, defaulting to
the actor options. -/
structure PublishProps where
  delivery_mode : Nat
  priority : Option Val
deriving DecidableEq, Repr

/-- The priority resolution of enqueue (rabbitmq.py line 224):
message.options.get of priority with the actor-level priority as the
default. -/
def resolvePriority (messageOptions actorOptions : List (String × Val)) : Option Val :=
  match assocLookup "priority" messageOptions with
  | some v => some v
  | none => assocLookup "priority" actorOptions

/-- The pure prefix of RabbitmqBroker.enqueue (rabbitmq.py lines
220-234): build the publish properties, and when a delay is given,
retarget the copy of the message at the delay queue and stamp its eta.
Returns the routing key, the message that will be published and
returned, and the publish properties.  current_millis() is passed in as
now. -/
def enqueueSetup (message : Message) (actorOptions : List (String × Val))
    (delay : Option Int) (now : Int) : String × Message × PublishProps :=
  let queue_name := message.queue_name
  let properties : PublishProps :=
    { delivery_mode := 2
      priority := resolvePriority message.options actorOptions }
  match delay with
  | none => (queue_name, message, properties)
  | some d =>
      let queue_name := dq_name queue_name
      let message_eta := now + d
      (queue_name, message.copy queue_name [("eta", Val.vint message_eta)], properties)

/-! ### The enqueue retry loop -/

/-- An AMQP transport error class caught by the adapter. -/
inductive AmqpExc where
  | connErr
  | chanErr
deriving DecidableEq, Repr

/-- The outcome of one iteration of the enqueue try block, given by an
oracle per attempt number: the whole block succeeds, or the lazy
topology declaration raises, or the publish raises. -/
inductive AttemptOutcome where
  | success
  | declFail (e : AmqpExc)
  | pubFail (e : AmqpExc)
deriving DecidableEq, Repr

/-- Whether an attempt outcome is a transport failure. -/
def AttemptOutcome.isFail : AttemptOutcome → Bool
  | .success => false
  | .declFail _ => true
  | .pubFail _ => true

/-- The except block of enqueue (rabbitmq.py lines 256-262): a
connection-level error discards the shared connection (del
self.connection, which closes it and with it the thread's channel);
a channel-level error discards only the thread's channel. -/
def applyAmqpError (e : AmqpExc) (st : RabbitmqBroker) : RabbitmqBroker :=
  match e with
  | .connErr => { st with connectionOpen := false, channelOpen := false }
  | .chanErr => { st with channelOpen := false }

/-- The result of the enqueue loop: success returns the (possibly
rewritten) message; six transport failures raise ConnectionClosed.
Both carry the trace of broker operations and the final state. -/
inductive EnqResult where
  | ok (trace : List BrokerOp) (st : RabbitmqBroker) (returned : Message)
  | connectionClosed (trace : List BrokerOp) (st : RabbitmqBroker) (e : AmqpExc)
  | outOfFuel
deriving DecidableEq, Repr

/-- The while-True retry loop of enqueue (rabbitmq.py lines 236-271),
given fuel (the loop runs at most MAX_ENQUEUE_ATTEMPTS iterations).  On
each attempt: declare the recorded queues if not yet declared, then
publish; a transport failure runs applyAmqpError, increments attempts
and retries, unless attempts would exceed MAX_ENQUEUE_ATTEMPTS, in
which case ConnectionClosed is raised. -/
def enqueueGo (oc : Nat → AttemptOutcome) (routing_key : String) (body : Wire)
    (props : PublishProps) (message : Message) :
    Nat → Nat → List BrokerOp → RabbitmqBroker → EnqResult
  | 0, _, _, _ => EnqResult.outOfFuel
  | fuel + 1, attempts, trace, st =>
    let declOps := if st.queues_declared then [] else declareRabbitmqQueuesOps st
    match oc attempts with
    | .success =>
        EnqResult.ok
          (trace ++ declOps ++
            [BrokerOp.basicPublish routing_key body props.delivery_mode props.priority])
          { st with queues_declared := true, connectionOpen := true, channelOpen := true }
          message
    | .declFail e =>
        let st₂ := applyAmqpError e st
        if attempts + 1 > MAX_ENQUEUE_ATTEMPTS then
          EnqResult.connectionClosed trace st₂ e
        else
          enqueueGo oc routing_key body props message fuel (attempts + 1) trace st₂
    | .pubFail e =>
        let st₂ := applyAmqpError e { st with queues_declared := true }
        if attempts + 1 > MAX_ENQUEUE_ATTEMPTS then
          EnqResult.connectionClosed (trace ++ declOps) st₂ e
        else
          enqueueGo oc routing_key body props message fuel (attempts + 1) (trace ++ declOps) st₂

/-- RabbitmqBroker.enqueue (rabbitmq.py lines 208-271): setup followed
by the retry loop, starting at attempt 1 with fuel
MAX_ENQUEUE_ATTEMPTS. -/
def enqueue (oc : Nat → AttemptOutcome) (st : RabbitmqBroker) (message : Message)
    (actorOptions : List (String × Val)) (delay : Option Int) (now : Int) : EnqResult :=
  let setup := enqueueSetup message actorOptions delay now
  enqueueGo oc setup.1 setup.2.1.encode setup.2.2 setup.2.1
    MAX_ENQUEUE_ATTEMPTS 1 [] st

/-! ### join -/

/-- The queue depths returned by get_queue_message_counts (rabbitmq.py
lines 282-300): main, delay, dead-letter counts, sampled at each poll
(index i is the i-th poll of the loop). -/
abbrev CountStream : Type := Nat → Nat × Nat × Nat

/-- The part of the sampled triple that join sums (rabbitmq.py line 342,
sum of the triple with the last component dropped): main plus delay,
dead-letter excluded. -/
def joinSample (counts : CountStream) (i : Nat) : Nat :=
  (counts i).1 + (counts i).2.1

/-- The result of join: normal return at iteration i, or
QueueJoinTimeout raised at iteration i. -/
inductive JoinResult where
  | ok (i : Nat)
  | queueJoinTimeout (i : Nat)
  | outOfFuel
deriving DecidableEq, Repr

/-- The polling loop of RabbitmqBroker.join (rabbitmq.py lines 336-348),
time abstracted to a monotonic clock read at the top of each iteration.
While successes is below min_successes: raise QueueJoinTimeout when a
deadline is set and reached, otherwise sample the main and delay depths,
incrementing successes on a zero read and resetting it to zero
otherwise. -/
def joinGo (min_successes : Nat) (deadline : Option Nat) (clock : Nat → Nat)
    (counts : CountStream) : Nat → Nat → Nat → JoinResult
  | 0, _, _ => JoinResult.outOfFuel
  | fuel + 1, i, successes =>
    if min_successes ≤ successes then JoinResult.ok i
    else if (deadline.map fun d => decide (d ≤ clock i)).getD false then
      JoinResult.queueJoinTimeout i
    else
      joinGo min_successes deadline clock counts fuel (i + 1)
        (if joinSample counts i = 0 then successes + 1 else 0)

/-- RabbitmqBroker.join (rabbitmq.py lines 317-348) with a timeout set:
the deadline is the clock origin plus the timeout (Python computes
deadline as: timeout and monotonic plus timeout; a zero timeout is falsy
and leaves no deadline, mirrored by the guard here), successes starts at
zero, and the loop runs with the given fuel. -/
def join (min_successes : Nat) (timeout : Option Nat) (t₀ : Nat) (clock : Nat → Nat)
    (counts : CountStream) (fuel : Nat) : JoinResult :=
  let deadline : Option Nat := timeout.bind fun t => if t = 0 then none else some (t₀ + t)
  joinGo min_successes deadline clock counts fuel 0 0

/-! ### Consumer ack / nack -/

/-- What the underlying library call on a delivered-message handle does:
succeed, raise an AMQP connection- or channel-level error, or raise any
other exception. -/
inductive CallResult where
  | ok
  | raisesAmqp (e : AmqpExc)
  | raisesOther
deriving DecidableEq, Repr

/-- An object passed to Consumer.ack / Consumer.nack: either a handle of
a message consumed from this consumer (whose underlying ack/nack call
behaves as recorded), or a foreign object that is not such a handle, on
which the underlying call fails with an ordinary (non-AMQP)
exception. -/
inductive Handle where
  | valid (r : CallResult)
  | foreign
deriving DecidableEq, Repr

/-- The behaviour of the underlying message.ack() / message.nack() call
for a given handle. -/
def Handle.call : Handle → CallResult
  | .valid r => r
  | .foreign => CallResult.raisesOther

/-- The error raised to the caller of ack/nack, when any. -/
inductive AckNackError where
  | connectionClosed (e : AmqpExc)
deriving DecidableEq, Repr

/-- _RabbitmqConsumer.ack (rabbitmq.py lines 362-368): call the handle's
ack; re-raise an AMQP connection/channel error as ConnectionClosed; any
other exception is logged and swallowed. -/
def consumerAck (message : Handle) : Except AckNackError Unit :=
  match message.call with
  | .raisesAmqp e => Except.error (AckNackError.connectionClosed e)
  | _ => Except.ok ()

/-- _RabbitmqConsumer.nack (rabbitmq.py lines 370-376): call the
handle's nack with requeue False; same error handling as ack.  The
first component records the requeue flag passed to the underlying
call. -/
def consumerNack (message : Handle) : Bool × Except AckNackError Unit :=
  ( false,
    match message.call with
    | .raisesAmqp e => Except.error (AckNackError.connectionClosed e)
    | _ => Except.ok () )

/-! ### Lookup lemmas -/

theorem assocLookup_append (k : String) (l₁ l₂ : List (String × α)) :
    assocLookup k (l₁ ++ l₂) =
      match assocLookup k l₁ with
      | some v => some v
      | none => assocLookup k l₂ := by
  induction l₁ with
  | nil => simp [assocLookup]
  | cons p t ih =>
    by_cases hk : k = p.1
    · simp [assocLookup, hk]
    · simp [assocLookup, hk, ih]

theorem assocLookup_update_map (k : String) (base upd : List (String × Val)) :
    assocLookup k (base.map fun p => (p.1, (assocLookup p.1 upd).getD p.2)) =
      (assocLookup k base).map fun v => (assocLookup k upd).getD v := by
  induction base with
  | nil => simp [assocLookup]
  | cons p t ih =>
    by_cases hk : k = p.1
    · subst hk
      simp [assocLookup]
    · simp [assocLookup, hk, ih]

theorem assocLookup_filter_other (k : String) (l : List (String × α)) (pred : String × α → Bool)
    (hkeep : ∀ v, pred (k, v) = true) :
    assocLookup k (l.filter pred) = assocLookup k l := by
  induction l with
  | nil => simp
  | cons p t ih =>
    obtain ⟨a, b⟩ := p
    by_cases hk : k = a
    · subst hk
      simp [List.filter, hkeep b, assocLookup, ih]
    · by_cases hp : pred (a, b) = true
      · simp [List.filter, hp, assocLookup, hk, ih]
      · simp only [List.filter, Bool.not_eq_true] at hp ⊢
        rw [hp]
        simp [assocLookup, hk, ih]

theorem assocLookup_optionsUpdate (base upd : List (String × Val)) (k : String) :
    assocLookup k (optionsUpdate base upd) =
      match assocLookup k base with
      | some v => some ((assocLookup k upd).getD v)
      | none => assocLookup k upd := by
  rw [optionsUpdate, assocLookup_append, assocLookup_update_map]
  cases hb : assocLookup k base with
  | some v => simp
  | none =>
    simp only [Option.map_none]
    exact assocLookup_filter_other k upd _ fun v => by simp [hb]

theorem assocLookup_optionsUpdate_self (base : List (String × Val)) (k : String) (x : Val) :
    assocLookup k (optionsUpdate base [(k, x)]) = some x := by
  rw [assocLookup_optionsUpdate]
  cases hb : assocLookup k base <;> simp [assocLookup]

/-! ### Claim theorems -/

/-- C1: for every Message m, decoding the wire body produced by encoding
m yields a Message semantically equal to m — same message_id,
actor_name, queue_name, args, kwargs and options mapping, independent of
options-key order (encoding any semantically equal representative, in
particular one whose options mapping is a permutation of the
original, decodes to a semantically equal Message); and the Message the
consumer wraps from a published body equals the Message that was
enqueued. -/
theorem c1_decode_encode_roundtrip (m m₂ : Message) (h : msgSemEq m₂ m) :
    (∃ r, Message.decode (Message.encode m₂) = some r ∧ msgSemEq r m) ∧
    consumerWrapMessage (Message.encode m) = some m := by
  refine ⟨⟨m₂, ?_, h⟩, ?_⟩
  · exact decode_encode m₂
  · exact decode_encode m

theorem c1_decode_encode_roundtrip_witness :
    let mA : Message := ⟨"id-1", "add", "default", [Val.vint 1, Val.vint 2], [],
      [("priority", Val.vint 3), ("eta", Val.vint 9)]⟩
    let mB : Message := ⟨"id-1", "add", "default", [Val.vint 1, Val.vint 2], [],
      [("eta", Val.vint 9), ("priority", Val.vint 3)]⟩
    msgSemEq mB mA ∧
      ((∃ r, Message.decode (Message.encode mB) = some r ∧ msgSemEq r mA) ∧
        consumerWrapMessage (Message.encode mA) = some mA) := by
  refine ⟨?_, c1_decode_encode_roundtrip _ _ ?_⟩ <;>
    exact ⟨rfl, rfl, rfl, rfl, List.Perm.refl _, List.Perm.swap _ _ _⟩

/-- C7: the dead-letter queue Q.XQ is declared with a static
x-message-ttl argument of exactly 604,800,000 milliseconds (7 days), a
fixed constant of the adapter independent of the queue name and of any
message or per-call input. -/
theorem c7_dead_letter_ttl (queue_name : String) :
    declareXqQueueOp queue_name =
      BrokerOp.queueDeclare (xq_name queue_name) true
        [("x-message-ttl", ArgVal.int 604800000)] ∧
    DEAD_MESSAGE_TTL = 604800000 ∧
    DEAD_MESSAGE_TTL = 86400000 * 7 := by
  refine ⟨?_, by decide, rfl⟩
  simp only [declareXqQueueOp, DEAD_MESSAGE_TTL]
  norm_num

/-- C8: constructing a RabbitmqBroker with max_priority outside 1..255
fails synchronously with the validation error, before any broker
connection is made (no state is produced); constructing it with
max_priority in 1..255 or None succeeds, still without a connection. -/
theorem c8_max_priority_validation (confirm : Bool) (url : Option String) (p : Int) :
    ((p < 1 ∨ 255 < p) →
      brokerInit confirm url (some p) =
        Except.error "max_priority must be a value between 0 and 255") ∧
    (1 ≤ p → p ≤ 255 →
      ∃ st, brokerInit confirm url (some p) = Except.ok st ∧
        st.connectionOpen = false ∧ st.max_priority = some p) ∧
    (∃ st, brokerInit confirm url none = Except.ok st ∧
      st.connectionOpen = false ∧ st.max_priority = none) := by
  refine ⟨fun hout => ?_, fun h₁ h₂ => ?_, ?_⟩
  · rw [brokerInit, if_pos]
    refine ⟨rfl, ?_⟩
    simp only [Option.getD_some]
    omega
  · rw [brokerInit, if_neg]
    · exact ⟨_, rfl, rfl, rfl⟩
    · simp only [Option.getD_some]
      omega
  · rw [brokerInit, if_neg]
    · exact ⟨_, rfl, rfl, rfl⟩
    · simp

theorem c8_max_priority_validation_witness :
    (((256 : Int) < 1 ∨ 255 < (256 : Int)) →
      brokerInit false none (some 256) =
        Except.error "max_priority must be a value between 0 and 255") ∧
    ((1 : Int) ≤ 256 → (256 : Int) ≤ 255 →
      ∃ st, brokerInit false none (some 256) = Except.ok st ∧
        st.connectionOpen = false ∧ st.max_priority = some 256) ∧
    (∃ st, brokerInit false none none = Except.ok st ∧
      st.connectionOpen = false ∧ st.max_priority = none) ∧
    brokerInit false none (some 256) =
      Except.error "max_priority must be a value between 0 and 255" :=
  ⟨(c8_max_priority_validation false none 256).1,
    (c8_max_priority_validation false none 256).2.1,
    (c8_max_priority_validation false none 256).2.2,
    (c8_max_priority_validation false none 256).1 (Or.inr (by decide))⟩

/-- C9: an object passed to Consumer.ack or Consumer.nack that is not a
valid consumed-message handle makes the call return normally (the
underlying failure is only logged); more generally any non-AMQP failure
of the underlying call is swallowed; an AMQP connection- or
channel-level error is the only case re-raised, as ConnectionClosed; and
nack always rejects with requeue false. -/
theorem c9_ack_nack_foreign_handles (h : Handle) (e : AmqpExc) :
    (h = Handle.foreign →
      consumerAck h = Except.ok () ∧ (consumerNack h).2 = Except.ok ()) ∧
    ((∀ e₂, h.call ≠ CallResult.raisesAmqp e₂) →
      consumerAck h = Except.ok () ∧ (consumerNack h).2 = Except.ok ()) ∧
    (h.call = CallResult.raisesAmqp e →
      consumerAck h = Except.error (AckNackError.connectionClosed e) ∧
      (consumerNack h).2 = Except.error (AckNackError.connectionClosed e)) ∧
    (consumerNack h).1 = false := by
  refine ⟨fun hf => ?_, fun hn => ?_, fun ha => ?_, rfl⟩
  · subst hf
    exact ⟨rfl, rfl⟩
  · cases hc : h.call with
    | ok => simp [consumerAck, consumerNack, hc]
    | raisesAmqp e₂ => exact absurd hc (hn e₂)
    | raisesOther => simp [consumerAck, consumerNack, hc]
  · simp [consumerAck, consumerNack, ha]

theorem c9_ack_nack_foreign_handles_witness :
    ((Handle.foreign = Handle.foreign →
      consumerAck Handle.foreign = Except.ok () ∧
        (consumerNack Handle.foreign).2 = Except.ok ()) ∧
    ((∀ e₂, Handle.foreign.call ≠ CallResult.raisesAmqp e₂) →
      consumerAck Handle.foreign = Except.ok () ∧
        (consumerNack Handle.foreign).2 = Except.ok ()) ∧
    (Handle.foreign.call = CallResult.raisesAmqp AmqpExc.connErr →
      consumerAck Handle.foreign = Except.error (AckNackError.connectionClosed AmqpExc.connErr) ∧
      (consumerNack Handle.foreign).2 =
        Except.error (AckNackError.connectionClosed AmqpExc.connErr)) ∧
    (consumerNack Handle.foreign).1 = false) ∧
    consumerAck Handle.foreign = Except.ok () :=
  ⟨c9_ack_nack_foreign_handles Handle.foreign AmqpExc.connErr,
    (c9_ack_nack_foreign_handles Handle.foreign AmqpExc.connErr).1 rfl |>.1⟩

/-- C10: the published priority property is the message's own priority
option if present, otherwise the actor's priority option, otherwise
absent; in particular when both declare a priority the message-level
value wins.  The first conjunct ties the property built by enqueueSetup
to the resolution rule for every delay. -/
theorem c10_priority_resolution (m : Message) (actorOptions : List (String × Val))
    (delay : Option Int) (now : Int) (v : Val) :
    ((enqueueSetup m actorOptions delay now).2.2.priority =
      resolvePriority m.options actorOptions) ∧
    (assocLookup "priority" m.options = some v →
      resolvePriority m.options actorOptions = some v) ∧
    (assocLookup "priority" m.options = none →
      resolvePriority m.options actorOptions = assocLookup "priority" actorOptions) := by
  refine ⟨?_, fun hm => ?_, fun hm => ?_⟩
  · cases delay <;> rfl
  · rw [resolvePriority, hm]
  · rw [resolvePriority, hm]

theorem c10_priority_resolution_witness :
    let m : Message := ⟨"id-2", "add", "default", [], [], [("priority", Val.vint 7)]⟩
    let actorOptions : List (String × Val) := [("priority", Val.vint 1)]
    (((enqueueSetup m actorOptions none 0).2.2.priority =
        resolvePriority m.options actorOptions) ∧
      (assocLookup "priority" m.options = some (Val.vint 7) →
        resolvePriority m.options actorOptions = some (Val.vint 7)) ∧
      (assocLookup "priority" m.options = none →
        resolvePriority m.options actorOptions = assocLookup "priority" actorOptions)) ∧
    resolvePriority m.options actorOptions = some (Val.vint 7) := by
  refine ⟨c10_priority_resolution _ _ none 0 (Val.vint 7), ?_⟩
  exact (c10_priority_resolution _ [("priority", Val.vint 1)] none 0 (Val.vint 7)).2.1 rfl

/-- One successful iteration of the enqueue loop: declare the recorded
queues when not yet declared, publish, and return the message. -/
theorem enqueueGo_success (oc : Nat → AttemptOutcome) (rk : String) (body : Wire)
    (props : PublishProps) (msg : Message) (fuel attempts : Nat) (trace : List BrokerOp)
    (st : RabbitmqBroker) (h : oc attempts = AttemptOutcome.success) :
    enqueueGo oc rk body props msg (fuel + 1) attempts trace st =
      EnqResult.ok
        (trace ++ (if st.queues_declared then [] else declareRabbitmqQueuesOps st) ++
          [BrokerOp.basicPublish rk body props.delivery_mode props.priority])
        { st with queues_declared := true, connectionOpen := true, channelOpen := true }
        msg := by
  simp [enqueueGo, h]

/-- C3: enqueue with a delay publishes to the delay queue
dq_name of the queue a copy of the message whose options carry
eta equal to now plus the delay, with delivery_mode 2 and the priority
resolved from message/actor options, and returns that rewritten copy,
whose message_id, actor_name, args and kwargs are unchanged. -/
theorem c3_enqueue_delay (st : RabbitmqBroker) (m : Message)
    (actorOptions : List (String × Val)) (d now : Int) :
    ∃ m₂,
      enqueue (fun _ => AttemptOutcome.success) st m actorOptions (some d) now =
        EnqResult.ok
          ((if st.queues_declared then [] else declareRabbitmqQueuesOps st) ++
            [BrokerOp.basicPublish (dq_name m.queue_name) m₂.encode 2
              (resolvePriority m.options actorOptions)])
          { st with queues_declared := true, connectionOpen := true, channelOpen := true }
          m₂ ∧
      m₂.queue_name = dq_name m.queue_name ∧
      assocLookup "eta" m₂.options = some (Val.vint (now + d)) ∧
      m₂.message_id = m.message_id ∧
      m₂.actor_name = m.actor_name ∧
      m₂.args = m.args ∧
      m₂.kwargs = m.kwargs := by
  refine ⟨m.copy (dq_name m.queue_name) [("eta", Val.vint (now + d))],
    ?_, rfl, assocLookup_optionsUpdate_self _ _ _, rfl, rfl, rfl, rfl⟩
  have h := enqueueGo_success (fun _ => AttemptOutcome.success) (dq_name m.queue_name)
    (m.copy (dq_name m.queue_name) [("eta", Val.vint (now + d))]).encode
    ⟨2, resolvePriority m.options actorOptions⟩
    (m.copy (dq_name m.queue_name) [("eta", Val.vint (now + d))]) 5 1 [] st rfl
  simpa [enqueue, enqueueSetup, MAX_ENQUEUE_ATTEMPTS] using h

/-- C4: topology declaration declares, for each recorded logical queue
name, exactly three durable queues — the main, delay and dead-letter
queues — where the main and delay queues share arguments routing
rejected messages to the dead-letter queue (empty dead-letter exchange,
routing key xq_name of the queue) and carry an x-max-priority argument
exactly when the broker was constructed with max_priority set (the
hypothesis is the constructor's validation of max_priority). -/
theorem c4_queue_topology (st : RabbitmqBroker) (queue_name : String)
    (hmp : st.max_priority = none ∨
      ∃ p, st.max_priority = some p ∧ 0 < p ∧ p ≤ 255) :
    ∃ args,
      declareQueueOp st.max_priority queue_name =
        BrokerOp.queueDeclare queue_name true args ∧
      declareDqQueueOp st.max_priority queue_name =
        BrokerOp.queueDeclare (dq_name queue_name) true args ∧
      declareXqQueueOp queue_name =
        BrokerOp.queueDeclare (xq_name queue_name) true
          [("x-message-ttl", ArgVal.int DEAD_MESSAGE_TTL)] ∧
      assocLookup "x-dead-letter-exchange" args = some (ArgVal.str "") ∧
      assocLookup "x-dead-letter-routing-key" args =
        some (ArgVal.str (xq_name queue_name)) ∧
      ((assocLookup "x-max-priority" args).isSome ↔ st.max_priority.isSome) ∧
      declareRabbitmqQueuesOps st = st.queues.flatMap fun q =>
        [ declareQueueOp st.max_priority q, declareDqQueueOp st.max_priority q,
          declareXqQueueOp q ] := by
  rcases hmp with hmp | ⟨p, hmp, hp, _⟩
  · refine ⟨buildQueueArguments st.max_priority queue_name, rfl, rfl, rfl, ?_, ?_, ?_, rfl⟩ <;>
      rw [hmp] <;> simp [buildQueueArguments, assocLookup]
  · refine ⟨buildQueueArguments st.max_priority queue_name, rfl, rfl, rfl, ?_, ?_, ?_, rfl⟩ <;>
      rw [hmp] <;> simp [buildQueueArguments, assocLookup, hp.ne']

theorem c4_queue_topology_witness :
    (let st : RabbitmqBroker := ⟨"", false, some 5, false, false, ["default"], ["default.DQ"], false⟩
    st.max_priority = none ∨ ∃ p, st.max_priority = some p ∧ 0 < p ∧ p ≤ 255) ∧
    (let st : RabbitmqBroker := ⟨"", false, some 5, false, false, ["default"], ["default.DQ"], false⟩
    ∃ args,
      declareQueueOp st.max_priority "default" =
        BrokerOp.queueDeclare "default" true args ∧
      declareDqQueueOp st.max_priority "default" =
        BrokerOp.queueDeclare (dq_name "default") true args ∧
      declareXqQueueOp "default" =
        BrokerOp.queueDeclare (xq_name "default") true
          [("x-message-ttl", ArgVal.int DEAD_MESSAGE_TTL)] ∧
      assocLookup "x-dead-letter-exchange" args = some (ArgVal.str "") ∧
      assocLookup "x-dead-letter-routing-key" args =
        some (ArgVal.str (xq_name "default")) ∧
      ((assocLookup "x-max-priority" args).isSome ↔ st.max_priority.isSome) ∧
      declareRabbitmqQueuesOps st = st.queues.flatMap fun q =>
        [ declareQueueOp st.max_priority q, declareDqQueueOp st.max_priority q,
          declareXqQueueOp q ]) :=
  ⟨Or.inr ⟨5, rfl, by decide, by decide⟩,
    c4_queue_topology _ "default" (Or.inr ⟨5, rfl, by decide, by decide⟩)⟩

/-- C6: declare_queue is idempotent and performs no broker-level work —
a first call records the name and emits the declare hooks, a call with a
name already recorded changes nothing and emits no hooks, and the
channel-activity of declare_queue is always empty; the broker-side
declaration happens in enqueue, guarded by the queues_declared flag: an
enqueue with the flag set performs only the publish, one with the flag
clear declares every recorded queue first and sets the flag. -/
theorem c6_declare_queue_lazy (st : RabbitmqBroker) (queue_name : String) (m : Message)
    (actorOptions : List (String × Val)) (now : Int) :
    (queue_name ∉ st.queues →
      declare_queue st queue_name =
        ( { st with queues := st.queues ++ [queue_name],
                    delay_queues := st.delay_queues ++ [dq_name queue_name] },
          [ HookEv.beforeDeclareQueue queue_name, HookEv.afterDeclareQueue queue_name,
            HookEv.afterDeclareDelayQueue (dq_name queue_name) ],
          [] )) ∧
    (queue_name ∈ st.queues → declare_queue st queue_name = (st, [], [])) ∧
    ((declare_queue st queue_name).2.2 = []) ∧
    (st.queues_declared = true →
      enqueue (fun _ => AttemptOutcome.success) st m actorOptions none now =
        EnqResult.ok
          [BrokerOp.basicPublish m.queue_name m.encode 2
            (resolvePriority m.options actorOptions)]
          { st with queues_declared := true, connectionOpen := true, channelOpen := true }
          m) ∧
    (st.queues_declared = false →
      enqueue (fun _ => AttemptOutcome.success) st m actorOptions none now =
        EnqResult.ok
          (declareRabbitmqQueuesOps st ++
            [BrokerOp.basicPublish m.queue_name m.encode 2
              (resolvePriority m.options actorOptions)])
          { st with queues_declared := true, connectionOpen := true, channelOpen := true }
          m) := by
  refine ⟨fun hnew => ?_, fun hmem => ?_, ?_, fun hd => ?_, fun hd => ?_⟩
  · simp [declare_queue, hnew]
  · simp [declare_queue, hmem]
  · by_cases hmem : queue_name ∈ st.queues <;> simp [declare_queue, hmem]
  · have h := enqueueGo_success (fun _ => AttemptOutcome.success) m.queue_name m.encode
      ⟨2, resolvePriority m.options actorOptions⟩ m 5 1 [] st rfl
    rw [hd] at h
    simpa [enqueue, enqueueSetup, MAX_ENQUEUE_ATTEMPTS] using h
  · have h := enqueueGo_success (fun _ => AttemptOutcome.success) m.queue_name m.encode
      ⟨2, resolvePriority m.options actorOptions⟩ m 5 1 [] st rfl
    rw [hd] at h
    simpa [enqueue, enqueueSetup, MAX_ENQUEUE_ATTEMPTS] using h

theorem c6_declare_queue_lazy_witness :
    let st : RabbitmqBroker := ⟨"", false, none, false, false, [], [], false⟩
    ("default" ∉ st.queues) ∧
    ((declare_queue st "default").1.queues = ["default"]) ∧
    (declare_queue (declare_queue st "default").1 "default" =
      ((declare_queue st "default").1, [], [])) := by
  refine ⟨by decide, by decide, ?_⟩
  have h := c6_declare_queue_lazy (declare_queue ⟨"", false, none, false, false, [], [], false⟩
    "default").1 "default" ⟨"id-3", "add", "default", [], [], []⟩ [] 0
  exact h.2.1 (by decide)

/-- If every attempt fails with a transport error, the enqueue loop ends
in ConnectionClosed once attempts would exceed MAX_ENQUEUE_ATTEMPTS. -/
theorem enqueueGo_allFail (oc : Nat → AttemptOutcome) (rk : String) (body : Wire)
    (props : PublishProps) (msg : Message) :
    ∀ fuel attempts trace st, (∀ i, (oc i).isFail = true) →
      attempts + fuel = MAX_ENQUEUE_ATTEMPTS + 1 → 1 ≤ fuel →
      ∃ tr st₂ e, enqueueGo oc rk body props msg fuel attempts trace st =
        EnqResult.connectionClosed tr st₂ e := by
  intro fuel
  induction fuel with
  | zero => intro _ _ _ _ _ hf; omega
  | succ fuel ih =>
    intro attempts trace st hfail hsum _
    have hf := hfail attempts
    cases hoc : oc attempts with
    | success => rw [hoc] at hf; simp [AttemptOutcome.isFail] at hf
    | declFail e =>
      by_cases hlast : attempts + 1 > MAX_ENQUEUE_ATTEMPTS
      · exact ⟨trace, applyAmqpError e st, e, by simp [enqueueGo, hoc, hlast]⟩
      · have hfuel : 1 ≤ fuel := by
          simp only [MAX_ENQUEUE_ATTEMPTS] at hsum hlast ⊢
          omega
        obtain ⟨tr, st₂, e₂, hgo⟩ := ih (attempts + 1) trace (applyAmqpError e st)
          hfail (by omega) hfuel
        refine ⟨tr, st₂, e₂, ?_⟩
        simp only [enqueueGo, hoc, hlast, if_false]
        exact hgo
    | pubFail e =>
      by_cases hlast : attempts + 1 > MAX_ENQUEUE_ATTEMPTS
      · exact ⟨trace ++ (if st.queues_declared then [] else declareRabbitmqQueuesOps st),
          applyAmqpError e { st with queues_declared := true }, e,
          by simp [enqueueGo, hoc, hlast]⟩
      · have hfuel : 1 ≤ fuel := by
          simp only [MAX_ENQUEUE_ATTEMPTS] at hsum hlast ⊢
          omega
        obtain ⟨tr, st₂, e₂, hgo⟩ := ih (attempts + 1)
          (trace ++ (if st.queues_declared then [] else declareRabbitmqQueuesOps st))
          (applyAmqpError e { st with queues_declared := true }) hfail (by omega) hfuel
        refine ⟨tr, st₂, e₂, ?_⟩
        simp only [enqueueGo, hoc, hlast, if_false]
        exact hgo

/-- C2: a connection- or channel-level broker error during an enqueue
attempt (in the lazy topology declaration or in the publish) discards
the thread's channel — and, for connection-level errors, also the shared
connection — and retries the whole attempt with attempts incremented;
if every attempt fails this way, the sixth failure raises
ConnectionClosed to the caller. -/
theorem c2_enqueue_retry (oc : Nat → AttemptOutcome) (st : RabbitmqBroker) (m : Message)
    (actorOptions : List (String × Val)) (delay : Option Int) (now : Int)
    (rk : String) (body : Wire) (props : PublishProps) (msg : Message)
    (fuel attempts : Nat) (trace : List BrokerOp) (e : AmqpExc) :
    (applyAmqpError AmqpExc.connErr st =
      { st with connectionOpen := false, channelOpen := false }) ∧
    (applyAmqpError AmqpExc.chanErr st = { st with channelOpen := false }) ∧
    (oc attempts = AttemptOutcome.declFail e → attempts + 1 ≤ MAX_ENQUEUE_ATTEMPTS →
      enqueueGo oc rk body props msg (fuel + 1) attempts trace st =
        enqueueGo oc rk body props msg fuel (attempts + 1) trace (applyAmqpError e st)) ∧
    (oc attempts = AttemptOutcome.pubFail e → attempts + 1 ≤ MAX_ENQUEUE_ATTEMPTS →
      enqueueGo oc rk body props msg (fuel + 1) attempts trace st =
        enqueueGo oc rk body props msg fuel (attempts + 1)
          (trace ++ (if st.queues_declared then [] else declareRabbitmqQueuesOps st))
          (applyAmqpError e { st with queues_declared := true })) ∧
    ((∀ i, (oc i).isFail = true) →
      ∃ tr st₂ e₂, enqueue oc st m actorOptions delay now =
        EnqResult.connectionClosed tr st₂ e₂) := by
  refine ⟨rfl, rfl, fun hoc hle => ?_, fun hoc hle => ?_, fun hfail => ?_⟩
  · simp [enqueueGo, hoc, Nat.not_lt.mpr hle]
  · simp [enqueueGo, hoc, Nat.not_lt.mpr hle]
  · exact enqueueGo_allFail oc _ _ _ _ MAX_ENQUEUE_ATTEMPTS 1 [] st hfail rfl
      (by simp [MAX_ENQUEUE_ATTEMPTS])

theorem c2_enqueue_retry_witness :
    let oc : Nat → AttemptOutcome := fun _ => AttemptOutcome.declFail AmqpExc.connErr
    let st : RabbitmqBroker := ⟨"", false, none, true, true, ["default"], ["default.DQ"], false⟩
    let m : Message := ⟨"id-4", "add", "default", [], [], []⟩
    (applyAmqpError AmqpExc.connErr st =
      { st with connectionOpen := false, channelOpen := false }) ∧
    (oc 1 = AttemptOutcome.declFail AmqpExc.connErr →
      1 + 1 ≤ MAX_ENQUEUE_ATTEMPTS →
      enqueueGo oc "default" m.encode ⟨2, none⟩ m (4 + 1) 1 [] st =
        enqueueGo oc "default" m.encode ⟨2, none⟩ m 4 (1 + 1) []
          (applyAmqpError AmqpExc.connErr st)) ∧
    (∃ tr st₂ e₂, enqueue oc st m [] none 0 =
      EnqResult.connectionClosed tr st₂ e₂) := by
  refine ⟨?_, ?_, ?_⟩
  · exact (c2_enqueue_retry (fun _ => AttemptOutcome.declFail AmqpExc.connErr) _
      ⟨"id-4", "add", "default", [], [], []⟩ [] none 0 "default"
      (Message.encode ⟨"id-4", "add", "default", [], [], []⟩) ⟨2, none⟩
      ⟨"id-4", "add", "default", [], [], []⟩ 4 1 [] AmqpExc.connErr).1
  · exact (c2_enqueue_retry (fun _ => AttemptOutcome.declFail AmqpExc.connErr) _
      ⟨"id-4", "add", "default", [], [], []⟩ [] none 0 "default"
      (Message.encode ⟨"id-4", "add", "default", [], [], []⟩) ⟨2, none⟩
      ⟨"id-4", "add", "default", [], [], []⟩ 4 1 [] AmqpExc.connErr).2.2.1
  · exact (c2_enqueue_retry (fun _ => AttemptOutcome.declFail AmqpExc.connErr)
      ⟨"", false, none, true, true, ["default"], ["default.DQ"], false⟩
      ⟨"id-4", "add", "default", [], [], []⟩ [] none 0 "default"
      (Message.encode ⟨"id-4", "add", "default", [], [], []⟩) ⟨2, none⟩
      ⟨"id-4", "add", "default", [], [], []⟩ 4 1 [] AmqpExc.connErr).2.2.2.2
      (fun _ => rfl)

/-- Soundness of a normal return of the join loop: carrying the
invariant that successes counts the consecutive zero samples just
before the current iteration, a normal return at iteration n means the
last min_successes samples were all zero. -/
theorem joinGo_ok_sound (min_successes : Nat) (dl : Option Nat) (clock : Nat → Nat)
    (counts : CountStream) :
    ∀ fuel i s n, joinGo min_successes dl clock counts fuel i s = JoinResult.ok n →
      s ≤ i → (∀ j, i - s ≤ j → j < i → joinSample counts j = 0) →
      min_successes ≤ n ∧
        ∀ j, n - min_successes ≤ j → j < n → joinSample counts j = 0 := by
  intro fuel
  induction fuel with
  | zero => intro i s n h; simp [joinGo] at h
  | succ fuel ih =>
    intro i s n h hsi hinv
    rw [joinGo] at h
    by_cases hms : min_successes ≤ s
    · rw [if_pos hms] at h
      cases h
      exact ⟨le_trans hms hsi, fun j hj1 hj2 => hinv j (by omega) hj2⟩
    · rw [if_neg hms] at h
      by_cases hdl : ((dl.map fun d => decide (d ≤ clock i)).getD false) = true
      · rw [if_pos hdl] at h
        cases h
      · rw [if_neg hdl] at h
        by_cases hz : joinSample counts i = 0
        · rw [if_pos hz] at h
          refine ih (i + 1) (s + 1) n h (by omega) fun j hj1 hj2 => ?_
          rcases Nat.lt_succ_iff_lt_or_eq.mp hj2 with hj | hj
          · exact hinv j (by omega) hj
          · subst hj
            exact hz
        · rw [if_neg hz] at h
          exact ih (i + 1) 0 n h (by omega) fun j hj1 hj2 => by omega

/-- Soundness of a QueueJoinTimeout of the join loop: it is raised only
at an iteration whose clock reading has reached the deadline. -/
theorem joinGo_timeout_sound (min_successes d : Nat) (clock : Nat → Nat)
    (counts : CountStream) :
    ∀ fuel i s k,
      joinGo min_successes (some d) clock counts fuel i s = JoinResult.queueJoinTimeout k →
      d ≤ clock k ∧ i ≤ k := by
  intro fuel
  induction fuel with
  | zero => intro i s k h; simp [joinGo] at h
  | succ fuel ih =>
    intro i s k h
    rw [joinGo] at h
    by_cases hms : min_successes ≤ s
    · rw [if_pos hms] at h
      cases h
    · rw [if_neg hms] at h
      by_cases hdl : (((some d).map fun d => decide (d ≤ clock i)).getD false) = true
      · rw [if_pos hdl] at h
        cases h
        exact ⟨by simpa using hdl, le_refl _⟩
      · rw [if_neg hdl] at h
        obtain ⟨h1, h2⟩ := ih (i + 1) _ k h
        exact ⟨h1, by omega⟩

/-- C5: join with a timeout set returns normally only after the summed
depths of the main and delay queues (dead-letter excluded) have read
zero for min_successes consecutive samples (samples are spaced by the
idle sleep of the loop, one per iteration); a QueueJoinTimeout is
raised exactly at a poll whose clock reading has reached the deadline,
and any poll at or past the deadline before success raises it; a
non-zero sample resets the consecutive count to zero. -/
theorem c5_join_timeout (min_successes t t₀ fuel n k : Nat) (clock : Nat → Nat)
    (counts : CountStream) (ht : 0 < t) :
    (join min_successes (some t) t₀ clock counts fuel = JoinResult.ok n →
      min_successes ≤ n ∧
        ∀ j, n - min_successes ≤ j → j < n → (counts j).1 + (counts j).2.1 = 0) ∧
    (join min_successes (some t) t₀ clock counts fuel = JoinResult.queueJoinTimeout k →
      t₀ + t ≤ clock k) ∧
    (∀ i s, s < min_successes → t₀ + t ≤ clock i →
      joinGo min_successes (some (t₀ + t)) clock counts (fuel + 1) i s =
        JoinResult.queueJoinTimeout i) ∧
    (∀ i s, s < min_successes → ¬ (t₀ + t ≤ clock i) → joinSample counts i ≠ 0 →
      joinGo min_successes (some (t₀ + t)) clock counts (fuel + 1) i s =
        joinGo min_successes (some (t₀ + t)) clock counts fuel (i + 1) 0) := by
  have hjoin : join min_successes (some t) t₀ clock counts fuel =
      joinGo min_successes (some (t₀ + t)) clock counts fuel 0 0 := by
    simp [join, ht.ne']
  refine ⟨fun h => ?_, fun h => ?_, fun i s h1 h2 => ?_, fun i s h1 h2 h3 => ?_⟩
  · rw [hjoin] at h
    exact joinGo_ok_sound min_successes _ clock counts fuel 0 0 n h (le_refl 0)
      (fun j hj1 hj2 => by omega)
  · rw [hjoin] at h
    exact (joinGo_timeout_sound min_successes _ clock counts fuel 0 0 k h).1
  · rw [joinGo, if_neg (Nat.not_le.mpr h1)]
    simp [h2]
  · rw [joinGo, if_neg (Nat.not_le.mpr h1)]
    simp [h2, h3]

theorem c5_join_timeout_witness :
    (0 < 5) ∧
    ((join 1 (some 5) 0 (fun i => i) (fun _ => (0, 0, 0)) 3 = JoinResult.ok 1 →
      1 ≤ 1 ∧ ∀ j, 1 - 1 ≤ j → j < 1 →
        ((fun _ => ((0 : Nat), (0 : Nat), (0 : Nat))) j).1 +
          ((fun _ => ((0 : Nat), (0 : Nat), (0 : Nat))) j).2.1 = 0)) ∧
    (1 ≤ 1 ∧ ∀ j, 1 - 1 ≤ j → j < 1 →
      ((fun _ => ((0 : Nat), (0 : Nat), (0 : Nat))) j).1 +
        ((fun _ => ((0 : Nat), (0 : Nat), (0 : Nat))) j).2.1 = 0) ∧
    joinGo 1 (some (0 + 5)) (fun i => i) (fun _ => (0, 0, 0)) (3 + 1) 7 0 =
      JoinResult.queueJoinTimeout 7 := by
  refine ⟨by decide, ?_, ?_, ?_⟩
  · exact (c5_join_timeout 1 5 0 3 1 0 (fun i => i) (fun _ => (0, 0, 0)) (by decide)).1
  · exact (c5_join_timeout 1 5 0 3 1 0 (fun i => i) (fun _ => (0, 0, 0)) (by decide)).1
      (by decide)
  · exact (c5_join_timeout 1 5 0 3 1 0 (fun i => i) (fun _ => (0, 0, 0))
      (by decide)).2.2.1 7 0 (by decide) (by decide)

end Remoulade
